import Mathlib

/-!
Shallow embedding of the thread-pool / split-point core of src/src/thread.cpp
(Stockfish 2.3-era threading code), together with theorems settling the
frozen claims about it.

Modelling conventions:
* Machine integers are modelled as Nat / Int; the 64-bit shift
  1ULL << i is modelled with an explicit reduction mod 2^64.
* A SplitPoint pointer is identified by the pair (owning thread index,
  slot index in that thread array of split points), type SPRef, because
  every SplitPoint lives in some thread splitPoints array.
* Lock operations and condition-variable operations are recorded as
  events in a trace rather than executed, so that claims about which
  locks are taken (or not taken) are statable.
-/

/-- MAX_SPLITPOINTS_PER_THREAD, the compile-time capacity of the per-thread
split point stack (thread.h). -/
def MAX_SPLITPOINTS_PER_THREAD : Nat := 8

/-- INT_MAX, used by TimerThread::idle_loop as the wait duration when msec
is zero. -/
def INT_MAX : Nat := 2147483647

/-- The C expression 1ULL << i on a 64-bit unsigned integer. -/
def oneShl (i : Nat) : Nat := (1 <<< i) % 2 ^ 64

/-- A pointer to a SplitPoint: the owning thread index and the slot in that
thread splitPoints array. -/
structure SPRef where
  tid : Nat
  slot : Nat
  deriving DecidableEq, Repr

/-- The SplitPoint record of thread.h, with the fields thread.cpp reads and
writes. Pointer-valued fields (master, parent, mp, pos, ss) are modelled as
indices / opaque identifiers. -/
structure SplitPoint where
  master : Nat
  parent : Option SPRef
  slavesMask : Nat
  depth : Int
  bestMove : Nat
  threatMove : Nat
  alpha : Int
  beta : Int
  nodeType : Int
  bestValue : Int
  mp : Nat
  moveCount : Int
  pos : Nat
  nodes : Nat
  cutoff : Bool
  ss : Nat
  deriving DecidableEq, Repr

/-- A default SplitPoint value, standing for the indeterminate contents of an
unused slot of the per-thread split point array. -/
def spDefault : SplitPoint :=
  { master := 0, parent := none, slavesMask := 0, depth := 0, bestMove := 0,
    threatMove := 0, alpha := 0, beta := 0, nodeType := 0, bestValue := 0,
    mp := 0, moveCount := 0, pos := 0, nodes := 0, cutoff := false, ss := 0 }

instance : Inhabited SplitPoint := ⟨spDefault⟩

/-- The Thread record of thread.h: the fields of the base Thread class that
thread.cpp reads and writes. splitPoints is the fixed-size array
SplitPoint splitPoints[MAX_SPLITPOINTS_PER_THREAD], modelled as a list of
that length; activeSplitPoint is a SplitPoint pointer or NULL. -/
structure Thread where
  idx : Nat
  searching : Bool
  exit : Bool
  maxPly : Nat
  splitPointsSize : Nat
  splitPoints : List SplitPoint
  activeSplitPoint : Option SPRef
  deriving DecidableEq, Repr

/-- A default Thread value, used as the out-of-range fallback of list
indexing (never reached under the stated hypotheses). -/
def threadDefault : Thread :=
  { idx := 0, searching := false, exit := false, maxPly := 0,
    splitPointsSize := 0, splitPoints := [], activeSplitPoint := none }

instance : Inhabited Thread := ⟨threadDefault⟩

/-- The slice of Position that thread.cpp touches: this_thread() and the
nodes-searched counter, plus an opaque identity pid standing for the
address of the object. -/
structure Position where
  pid : Nat
  thisThread : Nat
  nodes : Nat
  deriving DecidableEq, Repr

/-- The ThreadPool record of thread.h: the worker list and the tuning
parameters read by read_uci_options. -/
structure ThreadPool where
  threads : List Thread
  maxThreadsPerSplitPoint : Nat
  minimumSplitDepth : Int
  sleepWhileIdle : Bool
  deriving DecidableEq, Repr

/-- Thread::is_available_to (thread.cpp lines 164-176): the thread is
available to help master iff it is not searching and either it has no split
points or the top-of-stack split point has the bit of master idx set in its
slavesMask (helpful master concept). The local copy of splitPointsSize made
by the source is the let binding size. -/
def Thread.is_available_to (t : Thread) (master : Thread) : Bool :=
  if t.searching then false
  else
    let size := t.splitPointsSize
    size == 0 ||
      ((t.splitPoints.getD (size - 1) spDefault).slavesMask &&& oneShl master.idx != 0)

/-- The list of indices into the splitPoints array that one call of
Thread::is_available_to reads: none when the thread is searching or its
stack is empty, otherwise exactly size - 1. -/
def isAvailableToIndices (t : Thread) : List Nat :=
  if t.searching then []
  else if t.splitPointsSize = 0 then []
  else [t.splitPointsSize - 1]

/-- ThreadPool::slave_available (thread.cpp lines 231-238): linear scan for
any thread available to master. -/
def ThreadPool.slave_available (pool : ThreadPool) (master : Thread) : Bool :=
  pool.threads.any (fun t => t.is_available_to master)

/-- Thread::cutoff_occurred (thread.cpp lines 147-154). The for loop
  for (sp = activeSplitPoint; sp; sp = sp.parent) if (sp.cutoff) return true
walks the parent chain starting at activeSplitPoint; the chain is passed
here as the list of SplitPoints it visits, head first (the empty list is a
NULL activeSplitPoint, the tail of the list is the parent chain). -/
def Thread.cutoff_occurred : List SplitPoint → Bool
  | [] => false
  | sp :: chain => if sp.cutoff then true else Thread.cutoff_occurred chain

/-- One event of the timer thread loop: taking or releasing the timer
mutex, waiting on the condition variable for ms milliseconds, or calling
check_time(). -/
inductive TimerEvent where
  | lockT : TimerEvent
  | waitFor : Nat → TimerEvent
  | unlockT : TimerEvent
  | checkTime : TimerEvent
  deriving DecidableEq, Repr

/-- One iteration of the body of TimerThread::idle_loop (thread.cpp lines
74-88), as the trace of events it performs. exitUnderLock is the value the
volatile exit flag is observed to have at the re-check made while the mutex
is held; the iteration is only entered when the loop guard observed exit as
false. The source waits for msec milliseconds when msec is nonzero and for
INT_MAX milliseconds when msec is zero, and calls check_time() only when
msec is nonzero. -/
def timerIterEvents (exitUnderLock : Bool) (msec : Nat) : List TimerEvent :=
  [TimerEvent.lockT]
    ++ (if exitUnderLock then []
        else [TimerEvent.waitFor (if msec ≠ 0 then msec else INT_MAX)])
    ++ [TimerEvent.unlockT]
    ++ (if msec ≠ 0 then [TimerEvent.checkTime] else [])

/-- The whole TimerThread::idle_loop as a trace, driven by the successive
observations of the volatile exit flag: each list element gives the value
observed at the while guard and the value observed under the mutex for one
potential iteration. The loop produces no further events once the guard
observes true. -/
def timerLoop (msec : Nat) : List (Bool × Bool) → List TimerEvent
  | [] => []
  | obs :: rest =>
      if obs.1 then []
      else timerIterEvents obs.2 msec ++ timerLoop msec rest

/-- One event of ThreadPool::split on the pool mutex, a split point mutex,
or a slave condition variable, plus the re-entry of the base idle loop. -/
inductive PoolEvent where
  | lockPool : PoolEvent
  | lockSP : PoolEvent
  | unlockSP : PoolEvent
  | unlockPool : PoolEvent
  | notifyOne : Nat → PoolEvent
  | enterIdleLoop : PoolEvent
  deriving DecidableEq, Repr

/-- Modelled from the spec: the phase in which the master re-enters its base
idle loop (Thread::idle_loop, defined in the search code of this repository,
which is not under src/). Per the spec (sections 4.1 and 4.4), during this
phase the master and the recruited slaves search at the split point and,
under the split point mutex, update only its shared search-node state:
best_value, best_move, the draining slaves_mask, the slave node counter
nodes, and the cutoff flag; the phase ends when the last participant leaves
and the master searching flag has been cleared. Nodes searched during the
phase are accumulated in the split point nodes field (added back to the
position counter on close), so the position counter itself, the split point
parent link and the master split stack are left as they were. The values
those shared fields hold when the phase ends are the components of this
record. -/
structure SearchOutcome where
  bestValue : Int
  bestMove : Nat
  slavesMask : Nat
  nodes : Nat
  cutoff : Bool
  deriving DecidableEq, Repr

/-- Result of the slave-recruitment for loop of ThreadPool::split. -/
structure RecruitResult where
  threads : List Thread
  slavesMask : Nat
  slavesCnt : Nat
  events : List PoolEvent
  deriving DecidableEq, Repr

/-- The slave-recruitment for loop of ThreadPool::split (thread.cpp lines
298-308): scan the workers in index order (i is the index of the head of
the remaining list ts); every worker that is_available_to the master gets
its bit set in the split point slavesMask, its activeSplitPoint set to the
new split point, its searching flag set, and a notify; the loop breaks when
slavesCnt + 1 (master included) reaches maxThreadsPerSplitPoint. -/
def recruitSlaves (master : Thread) (maxT : Nat) (spRef : SPRef) :
    List Thread → Nat → Nat → Nat → RecruitResult
  | [], _, mask, cnt =>
      { threads := [], slavesMask := mask, slavesCnt := cnt, events := [] }
  | t :: rest, i, mask, cnt =>
      if t.is_available_to master then
        let t' := { t with activeSplitPoint := some spRef, searching := true }
        let mask' := mask ||| oneShl i
        let cnt' := cnt + 1
        if cnt' + 1 ≥ maxT then
          { threads := t' :: rest, slavesMask := mask', slavesCnt := cnt',
            events := [PoolEvent.notifyOne i] }
        else
          let r := recruitSlaves master maxT spRef rest (i + 1) mask' cnt'
          { threads := t' :: r.threads, slavesMask := r.slavesMask,
            slavesCnt := r.slavesCnt, events := PoolEvent.notifyOne i :: r.events }
      else
        let r := recruitSlaves master maxT spRef rest (i + 1) mask cnt
        { threads := t :: r.threads, slavesMask := r.slavesMask,
          slavesCnt := r.slavesCnt, events := r.events }

/-- Everything a call of ThreadPool::split returns or leaves behind: the
returned value sp.bestValue, the new pool and position state, the value
written through the bestMove out parameter, the final slavesCnt, the trace
of lock / notify / idle-loop events, and three intermediate values: the
position node counter at the moment the close-out locks are taken and
sp.nodes as read there (lines 331-343), plus the value sp.slavesMask holds
right after the recruitment loop ends (line 310). On the declined path
these three are dummies (no recruitment or close-out happens there). -/
structure SplitResult where
  ret : Int
  pool : ThreadPool
  pos : Position
  bestMoveOut : Nat
  slavesCnt : Nat
  events : List PoolEvent
  nodesAtCloseout : Nat
  spNodes : Nat
  maskAfterRecruit : Nat
  deriving DecidableEq, Repr

/-- ThreadPool::split (thread.cpp lines 250-344). The C++ reference
SplitPoint and sp denotes the slot splitPoints[splitPointsSize] of the
master; writes through that reference are modelled by updating a let-bound
SplitPoint value and materializing it into the slot at each stage. The
Fake template parameter is the first argument; outcome is the spec-modelled
result of the idle-loop phase (see SearchOutcome). When the master stack is
full the function declines: it returns bestValue with the state untouched
and an empty event trace (nodesAtCloseout and spNodes are dummies there,
no close-out happens). -/
def ThreadPool.split (Fake : Bool) (pool : ThreadPool) (pos : Position) (ss : Nat)
    (alpha beta bestValue : Int) (bestMove : Nat) (depth : Int) (threatMove : Nat)
    (moveCount : Int) (mp : Nat) (nodeType : Int) (outcome : SearchOutcome) :
    SplitResult :=
  let masterIdx := pos.thisThread
  let master := pool.threads.getD masterIdx threadDefault
  if MAX_SPLITPOINTS_PER_THREAD ≤ master.splitPointsSize then
    { ret := bestValue, pool := pool, pos := pos, bestMoveOut := bestMove,
      slavesCnt := 0, events := [], nodesAtCloseout := pos.nodes, spNodes := 0,
      maskAfterRecruit := 0 }
  else
    let slot := master.splitPointsSize
    let spRef : SPRef := { tid := masterIdx, slot := slot }
    let sp0 : SplitPoint :=
      { master := masterIdx, parent := master.activeSplitPoint,
        slavesMask := oneShl master.idx, depth := depth, bestMove := bestMove,
        threatMove := threatMove, alpha := alpha, beta := beta,
        nodeType := nodeType, bestValue := bestValue, mp := mp,
        moveCount := moveCount, pos := pos.pid, nodes := 0, cutoff := false,
        ss := ss }
    let threads1 := pool.threads.set masterIdx
      { master with splitPoints := master.splitPoints.set slot sp0,
                    activeSplitPoint := some spRef }
    let r :=
      if Fake then
        { threads := threads1, slavesMask := sp0.slavesMask, slavesCnt := 0,
          events := [] }
      else
        recruitSlaves master pool.maxThreadsPerSplitPoint spRef threads1 0
          sp0.slavesMask 0
    let sp1 := { sp0 with slavesMask := r.slavesMask }
    let m2 := r.threads.getD masterIdx threadDefault
    let threads2 := r.threads.set masterIdx
      { m2 with splitPoints := m2.splitPoints.set slot sp1,
                splitPointsSize := m2.splitPointsSize + 1 }
    let enteredIdle := r.slavesCnt ≠ 0 ∨ Fake = true
    let sp2 :=
      if r.slavesCnt ≠ 0 ∨ Fake = true then
        { sp1 with bestValue := outcome.bestValue, bestMove := outcome.bestMove,
                   slavesMask := outcome.slavesMask, nodes := outcome.nodes,
                   cutoff := outcome.cutoff }
      else sp1
    let m3 := threads2.getD masterIdx threadDefault
    let threads3 := threads2.set masterIdx
      { m3 with searching := true, splitPointsSize := m3.splitPointsSize - 1,
                activeSplitPoint := sp2.parent,
                splitPoints := m3.splitPoints.set slot sp2 }
    { ret := sp2.bestValue,
      pool := { pool with threads := threads3 },
      pos := { pos with nodes := pos.nodes + sp2.nodes },
      bestMoveOut := sp2.bestMove,
      slavesCnt := r.slavesCnt,
      events := [PoolEvent.lockPool, PoolEvent.lockSP] ++ r.events
        ++ [PoolEvent.unlockSP, PoolEvent.unlockPool]
        ++ (if enteredIdle then [PoolEvent.enterIdleLoop] else [])
        ++ [PoolEvent.lockPool, PoolEvent.lockSP, PoolEvent.unlockSP,
            PoolEvent.unlockPool],
      nodesAtCloseout := pos.nodes,
      spNodes := sp2.nodes,
      maskAfterRecruit := r.slavesMask }

/-- The spec predicate of invariant 3 (helpful-master rule), written from
the words of the spec: worker w is a valid slave candidate for worker m iff
w is not searching and, in addition, either the split stack of w is empty
or the top-of-stack SplitPoint of w has the bit of the master index set in
its slaves mask. -/
def specValidSlaveCandidate (w m : Thread) : Prop :=
  w.searching = false ∧
    (w.splitPointsSize = 0 ∨
      (w.splitPoints.getD (w.splitPointsSize - 1) spDefault).slavesMask
          &&& oneShl m.idx ≠ 0)

/-- A parked worker of index i: not searching, empty split stack. -/
def idleThread (i : Nat) : Thread :=
  { idx := i, searching := false, exit := false, maxPly := 0,
    splitPointsSize := 0,
    splitPoints := List.replicate MAX_SPLITPOINTS_PER_THREAD spDefault,
    activeSplitPoint := none }

/-- A worker of index i that is currently searching (the state split
asserts for the master). -/
def busyMaster (i : Nat) : Thread :=
  { idleThread i with searching := true }

/-- The position used in the concrete scenarios: owned by worker 0, zero
nodes searched so far. -/
def scenarioPos : Position := { pid := 0, thisThread := 0, nodes := 0 }

/-- An arbitrary concrete outcome of the idle-loop phase, used in the
concrete scenarios. -/
def outcome0 : SearchOutcome :=
  { bestValue := 0, bestMove := 0, slavesMask := 1, nodes := 0, cutoff := false }

/-- Scenario S4 of the spec: 8 workers, worker 0 the searching master, all
other workers parked and idle, max_slaves_per_split = 3. -/
def scenarioPool8 : ThreadPool :=
  { threads := [busyMaster 0, idleThread 1, idleThread 2, idleThread 3,
                idleThread 4, idleThread 5, idleThread 6, idleThread 7],
    maxThreadsPerSplitPoint := 3, minimumSplitDepth := 0, sleepWhileIdle := true }

/-- The split call of scenario S4 (valid arguments: bestValue = alpha = 0,
beta = 1, depth = 1). -/
def scenarioSplit8 : SplitResult :=
  ThreadPool.split false scenarioPool8 scenarioPos 0 0 1 0 0 1 0 1 0 1 outcome0

/-- A two-worker pool whose maxThreadsPerSplitPoint is 1: worker 0 is the
searching master, worker 1 is idle. -/
def capPool : ThreadPool :=
  { threads := [busyMaster 0, idleThread 1],
    maxThreadsPerSplitPoint := 1, minimumSplitDepth := 0, sleepWhileIdle := true }

/-- The split call on capPool. -/
def capSplit : SplitResult :=
  ThreadPool.split false capPool scenarioPos 0 0 1 0 0 1 0 1 0 1 outcome0

/-- A master whose split stack is full. -/
def fullMaster : Thread :=
  { busyMaster 0 with splitPointsSize := MAX_SPLITPOINTS_PER_THREAD }

/-- A pool whose single worker has a full split stack. -/
def fullPool : ThreadPool :=
  { threads := [fullMaster, idleThread 1],
    maxThreadsPerSplitPoint := 8, minimumSplitDepth := 0, sleepWhileIdle := true }

/-- The split call on fullPool (the declined path). -/
def fullSplit : SplitResult :=
  ThreadPool.split false fullPool scenarioPos 0 0 1 0 0 1 0 1 0 1 outcome0

/-- A parked worker of index 1 that is itself master of one split point
whose slaves mask contains worker 0 (the helpful-master situation). -/
def helpfulW : Thread :=
  { idleThread 1 with
    splitPointsSize := 1,
    splitPoints := (List.replicate MAX_SPLITPOINTS_PER_THREAD spDefault).set 0
      { spDefault with slavesMask := oneShl 0 } }

theorem getD_set_self {α : Type} (l : List α) (i : Nat) (a d : α)
    (h : i < l.length) : (l.set i a).getD i d = a := by
  induction l generalizing i with
  | nil => simp at h
  | cons x xs ih =>
    cases i with
    | zero => rfl
    | succ n =>
      have h' : n < xs.length := by simpa using h
      show (x :: xs.set n a).getD (n + 1) d = a
      rw [List.getD_cons_succ]
      exact ih n h'

theorem recruitSlaves_length (master : Thread) (maxT : Nat) (spRef : SPRef) :
    ∀ (ts : List Thread) (i mask cnt : Nat),
      (recruitSlaves master maxT spRef ts i mask cnt).threads.length = ts.length := by
  intro ts
  induction ts with
  | nil => intro i mask cnt; rfl
  | cons t rest ih =>
    intro i mask cnt
    by_cases ha : t.is_available_to master
    · by_cases hb : cnt + 1 + 1 ≥ maxT
      · simp [recruitSlaves, ha, hb]
      · simp [recruitSlaves, ha, hb, ih]
    · simp [recruitSlaves, ha, ih]

theorem recruitSlaves_getD_stack (master : Thread) (maxT : Nat) (spRef : SPRef) :
    ∀ (ts : List Thread) (i mask cnt : Nat) (j : Nat),
      (((recruitSlaves master maxT spRef ts i mask cnt).threads.getD j
            threadDefault).splitPointsSize
          = ((ts.getD j threadDefault).splitPointsSize)) ∧
      (((recruitSlaves master maxT spRef ts i mask cnt).threads.getD j
            threadDefault).splitPoints
          = ((ts.getD j threadDefault).splitPoints)) := by
  intro ts
  induction ts with
  | nil => intro i mask cnt j; exact ⟨rfl, rfl⟩
  | cons t rest ih =>
    intro i mask cnt j
    by_cases ha : t.is_available_to master
    · by_cases hb : cnt + 1 + 1 ≥ maxT
      · cases j with
        | zero => simp [recruitSlaves, ha, hb]
        | succ n => simp [recruitSlaves, ha, hb]
      · cases j with
        | zero => simp [recruitSlaves, ha, hb]
        | succ n =>
          have := ih (i + 1) (mask ||| oneShl i) (cnt + 1) n
          simpa [recruitSlaves, ha, hb] using this
    · cases j with
      | zero => simp [recruitSlaves, ha]
      | succ n =>
        have := ih (i + 1) mask cnt n
        simpa [recruitSlaves, ha] using this

theorem recruitSlaves_getD_size (master : Thread) (maxT : Nat) (spRef : SPRef)
    (ts : List Thread) (i mask cnt : Nat) (j : Nat) :
    ((recruitSlaves master maxT spRef ts i mask cnt).threads.getD j
        threadDefault).splitPointsSize
      = (ts.getD j threadDefault).splitPointsSize :=
  (recruitSlaves_getD_stack master maxT spRef ts i mask cnt j).1

theorem recruitSlaves_getD_points (master : Thread) (maxT : Nat) (spRef : SPRef)
    (ts : List Thread) (i mask cnt : Nat) (j : Nat) :
    ((recruitSlaves master maxT spRef ts i mask cnt).threads.getD j
        threadDefault).splitPoints
      = (ts.getD j threadDefault).splitPoints :=
  (recruitSlaves_getD_stack master maxT spRef ts i mask cnt j).2

theorem recruitSlaves_cnt_bound (master : Thread) (maxT : Nat) (spRef : SPRef) :
    ∀ (ts : List Thread) (i mask cnt : Nat), cnt + 1 < maxT →
      (recruitSlaves master maxT spRef ts i mask cnt).slavesCnt + 1 ≤ maxT := by
  intro ts
  induction ts with
  | nil => intro i mask cnt h; simpa [recruitSlaves] using Nat.le_of_lt h
  | cons t rest ih =>
    intro i mask cnt h
    by_cases ha : t.is_available_to master
    · by_cases hb : cnt + 1 + 1 ≥ maxT
      · simp only [recruitSlaves, ha, if_true, hb, ge_iff_le, if_pos]
        omega
      · have h' : (cnt + 1) + 1 < maxT := by omega
        have := ih (i + 1) (mask ||| oneShl i) (cnt + 1) h'
        simpa [recruitSlaves, ha, hb] using this
    · have := ih (i + 1) mask cnt h
      simpa [recruitSlaves, ha] using this

/-- C7: Thread::cutoff_occurred returns true iff some split point on the
chain starting at activeSplitPoint and following parent links (the chain
itself included) has cutoff set; in particular it returns false when
activeSplitPoint is NULL (the empty chain). -/
theorem cutoff_occurred_iff_ancestor :
    (∀ chain : List SplitPoint,
        (Thread.cutoff_occurred chain = true ↔ ∃ sp ∈ chain, sp.cutoff = true)) ∧
    Thread.cutoff_occurred [] = false := by
  constructor
  · intro chain
    induction chain with
    | nil => simp [Thread.cutoff_occurred]
    | cons sp rest ih =>
      by_cases h : sp.cutoff = true
      · simp [Thread.cutoff_occurred, h]
      · simp [Thread.cutoff_occurred, h, ih]
  · rfl

/-- C6 counterexample: in an iteration of TimerThread::idle_loop with
msec = 0 and exit observed false, the loop parks on the condition variable
but does not invoke check_time(), contradicting the claim that every
iteration invokes the time-check collaborator. -/
theorem timer_iteration_msec_zero_cex :
    TimerEvent.checkTime ∉ timerIterEvents false 0 ∧
    TimerEvent.waitFor INT_MAX ∈ timerIterEvents false 0 := by
  constructor
  · decide
  · decide

/-- C6 as amended: on every iteration entered with exit observed false, the
timer parks on its condition variable for msec milliseconds when msec is
nonzero and for INT_MAX milliseconds (effectively indefinitely) when msec
is zero, and then invokes check_time() if and only if msec is nonzero. -/
theorem timer_iteration_checks :
    ∀ msec : Nat,
      TimerEvent.waitFor (if msec = 0 then INT_MAX else msec)
          ∈ timerIterEvents false msec ∧
      (TimerEvent.checkTime ∈ timerIterEvents false msec ↔ msec ≠ 0) := by
  intro msec
  by_cases h : msec = 0
  · subst h; exact ⟨by decide, by decide⟩
  · constructor
    · simp [timerIterEvents, h]
    · simp [timerIterEvents, h]

/-- C10: the wait of TimerThread::idle_loop is entered only if the exit
flag, re-checked while the timer mutex is held, is still false: an
iteration whose under-lock observation of exit is true performs no
condition-variable wait, and since exit stays true once set, the loop then
terminates without producing further events. -/
theorem timer_no_wait_after_exit :
    ∀ (msec : Nat) (rest : List (Bool × Bool)),
      (∀ p ∈ rest, p.1 = true) →
      (∀ d : Nat, TimerEvent.waitFor d ∉ timerLoop msec ((false, true) :: rest)) ∧
      timerLoop msec rest = [] := by
  intro msec rest h
  have hrest : timerLoop msec rest = [] := by
    cases rest with
    | nil => rfl
    | cons p rest2 =>
      have hp : p.1 = true := h p (by simp)
      simp [timerLoop, hp]
  refine ⟨?_, hrest⟩
  intro d
  by_cases hm : msec = 0
  · subst hm
    simp [timerLoop, timerIterEvents, hrest]
  · simp [timerLoop, timerIterEvents, hrest, hm]

/-- Witness for C10 at msec = 1 and one further observation pair. -/
theorem timer_no_wait_after_exit_witness :
    (∀ p ∈ [((true : Bool), (true : Bool))], p.1 = true) ∧
    ((∀ d : Nat,
        TimerEvent.waitFor d ∉ timerLoop 1 [(false, true), (true, true)]) ∧
      timerLoop 1 [((true : Bool), (true : Bool))] = []) :=
  ⟨by decide, timer_no_wait_after_exit 1 [(true, true)] (by decide)⟩

/-- C2: Thread::is_available_to(master) returns true iff the thread is not
searching and either its split-point stack is empty or the top-of-stack
SplitPoint slavesMask has the bit of the master index set, for every pair
of distinct threads and every state whose stack depth is at most
MAX_SPLITPOINTS_PER_THREAD. -/
theorem is_available_to_matches_spec :
    ∀ (w m : Thread), w.idx ≠ m.idx →
      w.splitPointsSize ≤ MAX_SPLITPOINTS_PER_THREAD →
      (w.is_available_to m = true ↔ specValidSlaveCandidate w m) := by
  intro w m _hne _hle
  unfold Thread.is_available_to specValidSlaveCandidate
  by_cases hs : w.searching
  · simp [hs]
  · have hs' : w.searching = false := by simpa using hs
    simp [hs']

/-- Witness for C2: the helpful-master case at concrete threads, worker 1
master of one split point whose top slavesMask holds the bit of worker 0. -/
theorem is_available_to_matches_spec_witness :
    helpfulW.idx ≠ (busyMaster 0).idx ∧
    helpfulW.splitPointsSize ≤ MAX_SPLITPOINTS_PER_THREAD ∧
    (helpfulW.is_available_to (busyMaster 0) = true ↔
      specValidSlaveCandidate helpfulW (busyMaster 0)) :=
  ⟨by decide, by decide,
    is_available_to_matches_spec helpfulW (busyMaster 0) (by decide) (by decide)⟩

/-- C8: Thread::is_available_to reads the splitPoints array only at index
size - 1, and only when the local copy size is nonzero, so under the stack
invariant every access is in bounds; moreover its result depends on no
array entry outside the accessed index list. -/
theorem is_available_to_in_bounds :
    ∀ (t m : Thread), t.splitPointsSize ≤ MAX_SPLITPOINTS_PER_THREAD →
      (∀ i ∈ isAvailableToIndices t, i < MAX_SPLITPOINTS_PER_THREAD) ∧
      (∀ sps : List SplitPoint,
          (∀ i ∈ isAvailableToIndices t,
              sps.getD i spDefault = t.splitPoints.getD i spDefault) →
          Thread.is_available_to { t with splitPoints := sps } m
            = Thread.is_available_to t m) := by
  intro t m hle
  constructor
  · intro i hi
    unfold isAvailableToIndices at hi
    by_cases hs : t.searching
    · simp [hs] at hi
    · by_cases hz : t.splitPointsSize = 0
      · simp [hs, hz] at hi
      · simp [hs, hz] at hi
        subst hi
        unfold MAX_SPLITPOINTS_PER_THREAD at hle ⊢
        omega
  · intro sps hsp
    unfold Thread.is_available_to
    by_cases hs : t.searching
    · simp [hs]
    · by_cases hz : t.splitPointsSize = 0
      · simp [hs, hz]
      · have heq := hsp (t.splitPointsSize - 1)
          (by unfold isAvailableToIndices; simp [hs, hz])
        simp only [List.getD, List.get?_eq_getElem?] at heq
        simp [hs, hz, heq]

/-- Witness for C8: a worker with one split point on its stack accesses
only index 0, which is within bounds. -/
theorem is_available_to_in_bounds_witness :
    helpfulW.splitPointsSize ≤ MAX_SPLITPOINTS_PER_THREAD ∧
    helpfulW.splitPointsSize - 1 ∈ isAvailableToIndices helpfulW ∧
    helpfulW.splitPointsSize - 1 < MAX_SPLITPOINTS_PER_THREAD :=
  ⟨by decide, by decide,
    (is_available_to_in_bounds helpfulW (busyMaster 0) (by decide)).1
      (helpfulW.splitPointsSize - 1) (by decide)⟩

/-- C4: when the master split-point stack is full, ThreadPool::split
returns the input bestValue unchanged immediately, acquires no lock,
initializes no SplitPoint slot, leaves the whole pool state (in particular
splitPointsSize) unchanged, and recruits nobody. -/
theorem split_full_stack_declines :
    ∀ (Fake : Bool) (pool : ThreadPool) (pos : Position) (ss : Nat)
      (alpha beta bestValue : Int) (bestMove : Nat) (depth : Int)
      (threatMove : Nat) (moveCount : Int) (mp : Nat) (nodeType : Int)
      (outcome : SearchOutcome),
      MAX_SPLITPOINTS_PER_THREAD ≤
          (pool.threads.getD pos.thisThread threadDefault).splitPointsSize →
      (ThreadPool.split Fake pool pos ss alpha beta bestValue bestMove depth
          threatMove moveCount mp nodeType outcome).ret = bestValue ∧
      (ThreadPool.split Fake pool pos ss alpha beta bestValue bestMove depth
          threatMove moveCount mp nodeType outcome).pool = pool ∧
      (ThreadPool.split Fake pool pos ss alpha beta bestValue bestMove depth
          threatMove moveCount mp nodeType outcome).events = [] ∧
      (ThreadPool.split Fake pool pos ss alpha beta bestValue bestMove depth
          threatMove moveCount mp nodeType outcome).slavesCnt = 0 := by
  intro Fake pool pos ss alpha beta bestValue bestMove depth threatMove
    moveCount mp nodeType outcome h
  simp only [List.getD, List.get?_eq_getElem?] at h
  simp [ThreadPool.split, h]

/-- Witness for C4 on a pool whose master stack is full. -/
theorem split_full_stack_declines_witness :
    MAX_SPLITPOINTS_PER_THREAD ≤
        (fullPool.threads.getD scenarioPos.thisThread threadDefault).splitPointsSize ∧
    (fullSplit.ret = 0 ∧ fullSplit.pool = fullPool ∧ fullSplit.events = [] ∧
      fullSplit.slavesCnt = 0) :=
  ⟨by decide,
    split_full_stack_declines false fullPool scenarioPos 0 0 1 0 0 1 0 1 0 1
      outcome0 (by decide)⟩

/-- C9: the declined path of ThreadPool::split performs no writes: the
bestMove out-parameter is returned as passed, the position node counter is
untouched, the master activeSplitPoint and searching flag keep their
values, and the splitPoints array of every thread is unchanged. -/
theorem split_decline_no_writes :
    ∀ (Fake : Bool) (pool : ThreadPool) (pos : Position) (ss : Nat)
      (alpha beta bestValue : Int) (bestMove : Nat) (depth : Int)
      (threatMove : Nat) (moveCount : Int) (mp : Nat) (nodeType : Int)
      (outcome : SearchOutcome),
      MAX_SPLITPOINTS_PER_THREAD ≤
          (pool.threads.getD pos.thisThread threadDefault).splitPointsSize →
      (ThreadPool.split Fake pool pos ss alpha beta bestValue bestMove depth
          threatMove moveCount mp nodeType outcome).bestMoveOut = bestMove ∧
      (ThreadPool.split Fake pool pos ss alpha beta bestValue bestMove depth
          threatMove moveCount mp nodeType outcome).pos.nodes = pos.nodes ∧
      ((ThreadPool.split Fake pool pos ss alpha beta bestValue bestMove depth
          threatMove moveCount mp nodeType outcome).pool.threads.getD
            pos.thisThread threadDefault).activeSplitPoint
        = (pool.threads.getD pos.thisThread threadDefault).activeSplitPoint ∧
      ((ThreadPool.split Fake pool pos ss alpha beta bestValue bestMove depth
          threatMove moveCount mp nodeType outcome).pool.threads.getD
            pos.thisThread threadDefault).searching
        = (pool.threads.getD pos.thisThread threadDefault).searching ∧
      (∀ j : Nat,
        ((ThreadPool.split Fake pool pos ss alpha beta bestValue bestMove depth
            threatMove moveCount mp nodeType outcome).pool.threads.getD j
              threadDefault).splitPoints
          = (pool.threads.getD j threadDefault).splitPoints) := by
  intro Fake pool pos ss alpha beta bestValue bestMove depth threatMove
    moveCount mp nodeType outcome h
  simp only [List.getD, List.get?_eq_getElem?] at h
  simp [ThreadPool.split, h]

/-- Witness for C9 on the same full-stack pool. -/
theorem split_decline_no_writes_witness :
    MAX_SPLITPOINTS_PER_THREAD ≤
        (fullPool.threads.getD scenarioPos.thisThread threadDefault).splitPointsSize ∧
    (fullSplit.bestMoveOut = 0 ∧ fullSplit.pos.nodes = scenarioPos.nodes ∧
      (fullSplit.pool.threads.getD scenarioPos.thisThread
          threadDefault).activeSplitPoint
        = (fullPool.threads.getD scenarioPos.thisThread
            threadDefault).activeSplitPoint ∧
      (fullSplit.pool.threads.getD scenarioPos.thisThread
          threadDefault).searching
        = (fullPool.threads.getD scenarioPos.thisThread
            threadDefault).searching ∧
      (∀ j : Nat,
        (fullSplit.pool.threads.getD j threadDefault).splitPoints
          = (fullPool.threads.getD j threadDefault).splitPoints)) :=
  ⟨by decide,
    split_decline_no_writes false fullPool scenarioPos 0 0 1 0 0 1 0 1 0 1
      outcome0 (by decide)⟩


/-- C3: every call of ThreadPool::split (declined path or normal path, Fake
either value) returns with the master splitPointsSize and activeSplitPoint
exactly as they were before the call: the normal path increments the size
and points activeSplitPoint at the new slot, and the close-out decrements
the size and restores activeSplitPoint to sp.parent, which was initialized
to the pre-call activeSplitPoint. -/
theorem split_restores_master_stack :
    ∀ (Fake : Bool) (pool : ThreadPool) (pos : Position) (ss : Nat)
      (alpha beta bestValue : Int) (bestMove : Nat) (depth : Int)
      (threatMove : Nat) (moveCount : Int) (mp : Nat) (nodeType : Int)
      (outcome : SearchOutcome),
      pos.thisThread < pool.threads.length →
      ((ThreadPool.split Fake pool pos ss alpha beta bestValue bestMove depth
          threatMove moveCount mp nodeType outcome).pool.threads.getD
            pos.thisThread threadDefault).splitPointsSize
        = (pool.threads.getD pos.thisThread threadDefault).splitPointsSize ∧
      ((ThreadPool.split Fake pool pos ss alpha beta bestValue bestMove depth
          threatMove moveCount mp nodeType outcome).pool.threads.getD
            pos.thisThread threadDefault).activeSplitPoint
        = (pool.threads.getD pos.thisThread threadDefault).activeSplitPoint := by
  intro Fake pool pos ss alpha beta bestValue bestMove depth threatMove
    moveCount mp nodeType outcome hm
  by_cases hfull : MAX_SPLITPOINTS_PER_THREAD ≤
      (pool.threads.getD pos.thisThread threadDefault).splitPointsSize
  · simp only [ThreadPool.split]
    rw [if_pos hfull]
    exact ⟨rfl, rfl⟩
  · simp only [ThreadPool.split]
    rw [if_neg hfull]
    cases Fake with
    | false =>
      simp only [Bool.false_eq_true, if_false, or_false,
        getD_set_self, List.length_set, recruitSlaves_length, hm,
        recruitSlaves_getD_size, Nat.add_sub_cancel,
        apply_ite SplitPoint.parent, ite_self]
      exact ⟨trivial, trivial⟩
    | true =>
      simp only [eq_self_iff_true, if_true, or_true,
        getD_set_self, List.length_set, recruitSlaves_length, hm,
        Nat.add_sub_cancel]
      exact ⟨trivial, trivial⟩

/-- Witness for C3 on the concrete 8-worker scenario pool. -/
theorem split_restores_master_stack_witness :
    scenarioPos.thisThread < scenarioPool8.threads.length ∧
    ((scenarioSplit8.pool.threads.getD scenarioPos.thisThread
          threadDefault).splitPointsSize
        = (scenarioPool8.threads.getD scenarioPos.thisThread
            threadDefault).splitPointsSize ∧
      (scenarioSplit8.pool.threads.getD scenarioPos.thisThread
          threadDefault).activeSplitPoint
        = (scenarioPool8.threads.getD scenarioPos.thisThread
            threadDefault).activeSplitPoint) :=
  ⟨by decide,
    split_restores_master_stack false scenarioPool8 scenarioPos 0 0 1 0 0 1 0 1
      0 1 outcome0 (by decide)⟩

/-- C5: for every completed (non-declined) call of ThreadPool::split, the
position node counter after the call equals its value at the moment the
close-out lock is taken plus sp.nodes, the nodes searched by slaves under
this split point: line 337 performs exactly
pos.set_nodes_searched(pos.nodes_searched() + sp.nodes) and nothing else in
split writes the counter. -/
theorem split_folds_sp_nodes :
    ∀ (Fake : Bool) (pool : ThreadPool) (pos : Position) (ss : Nat)
      (alpha beta bestValue : Int) (bestMove : Nat) (depth : Int)
      (threatMove : Nat) (moveCount : Int) (mp : Nat) (nodeType : Int)
      (outcome : SearchOutcome),
      (pool.threads.getD pos.thisThread threadDefault).splitPointsSize
          < MAX_SPLITPOINTS_PER_THREAD →
      (ThreadPool.split Fake pool pos ss alpha beta bestValue bestMove depth
          threatMove moveCount mp nodeType outcome).pos.nodes
        = (ThreadPool.split Fake pool pos ss alpha beta bestValue bestMove depth
            threatMove moveCount mp nodeType outcome).nodesAtCloseout
          + (ThreadPool.split Fake pool pos ss alpha beta bestValue bestMove
              depth threatMove moveCount mp nodeType outcome).spNodes := by
  intro Fake pool pos ss alpha beta bestValue bestMove depth threatMove
    moveCount mp nodeType outcome h
  have hfull : ¬ MAX_SPLITPOINTS_PER_THREAD ≤
      (pool.threads.getD pos.thisThread threadDefault).splitPointsSize :=
    Nat.not_le.mpr h
  simp only [ThreadPool.split]
  rw [if_neg hfull]

/-- Witness for C5 on the concrete 8-worker scenario pool. -/
theorem split_folds_sp_nodes_witness :
    (scenarioPool8.threads.getD scenarioPos.thisThread
        threadDefault).splitPointsSize < MAX_SPLITPOINTS_PER_THREAD ∧
    scenarioSplit8.pos.nodes
      = scenarioSplit8.nodesAtCloseout + scenarioSplit8.spNodes :=
  ⟨by decide,
    split_folds_sp_nodes false scenarioPool8 scenarioPos 0 0 1 0 0 1 0 1 0 1
      outcome0 (by decide)⟩

/-- C1 counterexample: with maxThreadsPerSplitPoint = 1 and one idle
worker, split recruits one slave before the cap test runs (the test sits
after the recruitment in the loop body), so recruited slaves plus the
master exceed maxThreadsPerSplitPoint. -/
theorem split_recruit_cap_cex :
    ¬ (capSplit.slavesCnt + 1 ≤ capPool.maxThreadsPerSplitPoint) := by decide

/-- C1 as amended: the recruitment loop of split scans workers in
increasing index order and stops as soon as, after recruiting a slave, the
recruited count plus the master reaches or exceeds maxThreadsPerSplitPoint
or the worker list is exhausted; hence whenever
maxThreadsPerSplitPoint is at least 2, the number of recruited slaves plus
one never exceeds maxThreadsPerSplitPoint (for smaller values the first
available worker is still recruited, see the counterexample); in
particular with 8 workers all slaves idle and maxThreadsPerSplitPoint = 3,
exactly 2 slaves are recruited, workers 1 and 2, and the remainder stay
parked. -/
theorem split_recruit_cap :
    (∀ (Fake : Bool) (pool : ThreadPool) (pos : Position) (ss : Nat)
       (alpha beta bestValue : Int) (bestMove : Nat) (depth : Int)
       (threatMove : Nat) (moveCount : Int) (mp : Nat) (nodeType : Int)
       (outcome : SearchOutcome),
       2 ≤ pool.maxThreadsPerSplitPoint →
       (ThreadPool.split Fake pool pos ss alpha beta bestValue bestMove depth
           threatMove moveCount mp nodeType outcome).slavesCnt + 1
         ≤ pool.maxThreadsPerSplitPoint) ∧
    (scenarioSplit8.slavesCnt = 2 ∧ scenarioSplit8.maskAfterRecruit = 7 ∧
      scenarioSplit8.pool.threads.map Thread.searching
        = [true, true, true, false, false, false, false, false]) := by
  constructor
  · intro Fake pool pos ss alpha beta bestValue bestMove depth threatMove
      moveCount mp nodeType outcome hmax
    by_cases hfull : MAX_SPLITPOINTS_PER_THREAD ≤
        (pool.threads.getD pos.thisThread threadDefault).splitPointsSize
    · simp only [ThreadPool.split]
      rw [if_pos hfull]
      show 0 + 1 ≤ pool.maxThreadsPerSplitPoint
      omega
    · simp only [ThreadPool.split]
      rw [if_neg hfull]
      cases Fake with
      | false =>
        simp only [Bool.false_eq_true, if_false]
        exact recruitSlaves_cnt_bound _ _ _ _ 0 _ 0 (by omega)
      | true =>
        show 0 + 1 ≤ pool.maxThreadsPerSplitPoint
        omega
  · exact ⟨by decide, by decide, by decide⟩

/-- Witness for C1 as amended, on the 8-worker scenario pool. -/
theorem split_recruit_cap_witness :
    2 ≤ scenarioPool8.maxThreadsPerSplitPoint ∧
    scenarioSplit8.slavesCnt + 1 ≤ scenarioPool8.maxThreadsPerSplitPoint :=
  ⟨by decide,
    split_recruit_cap.1 false scenarioPool8 scenarioPos 0 0 1 0 0 1 0 1 0 1
      outcome0 (by decide)⟩
